import Mathlib

/-!
Verification development for the 0BullshitIntelligence conversation pipeline.

The Lean definitions below are a shallow embedding of the Python sources:

  app/ai_systems/search_investors.py  (InvestorSearchSystem)
  app/search/investor_search.py       (InvestorSearchEngine)
  app/ai_systems/librarian.py         (LibrarianBot)
  app/ai_systems/judge_system.py      (JudgeSystem)
  app/api/websockets/manager.py       (WebSocketManager)

Python floats are modelled as rationals, Python dictionaries with a fixed
key universe as structures with Option fields (none = key absent), and
fallible collaborator calls (database queries, the Gemini text oracle) as
Except-valued inputs.  Python truthiness of optional strings and lists is
made explicit through helper functions.
-/

/-! ### String helpers

The Lean standard library string functions (String.toLower, String.trim,
String.splitOn) are defined through position-based auxiliary recursion that
the kernel does not reduce, so the embedding works on the underlying
character lists instead.  Semantics on the ASCII inputs used by the code
agree with the Python methods str.lower, str.strip and the `in` operator.
-/

/-- Python str.lower (ASCII case folding, matching the stage keywords used
by the code). -/
def strLower (s : String) : String := ⟨s.data.map Char.toLower⟩

/-- Character-list substring test: does `pat` occur inside the list? -/
def hasSub (pat : List Char) : List Char → Bool
  | [] => pat.isEmpty
  | c :: t => pat.isPrefixOf (c :: t) || hasSub pat t

/-- Python `pat in s` on strings. -/
def strContains (s pat : String) : Bool := hasSub pat.data s.data

/-- Python str.strip: drop whitespace from both ends. -/
def trimChars (l : List Char) : List Char :=
  ((l.dropWhile Char.isWhitespace).reverse.dropWhile Char.isWhitespace).reverse

/-- Python str.strip as a String function. -/
def strTrim (s : String) : String := ⟨trimChars s.data⟩

/-- Python `", ".join(parts)`. -/
def strJoin (sep : String) : List String → String
  | [] => ""
  | [x] => x
  | x :: xs => x ++ sep ++ strJoin sep xs

/-- Python truthiness of an optional string: None and the empty string are
falsy, every other string is truthy. -/
def pyTruthyS : Option String → Bool
  | none => false
  | some s => !s.data.isEmpty

/-- Python `any(term in s for term in terms)`. -/
def anyTermIn (s : String) (terms : List String) : Bool :=
  terms.any (fun t => strContains s t)

/-! ### InvestorSearchSystem.can_search_investors
(app/ai_systems/search_investors.py, lines 32-59)

The project dictionary read by the gate: `completeness_score` (float,
default 0.0), `stage` (string or None) and `categories` (list, default []).
-/

/-- `self.min_completeness_score = 50.0` from InvestorSearchSystem.__init__. -/
def minCompletenessScore : ℚ := 50.0

/-- `self.min_angel_score = 40.0` from InvestorSearchSystem.__init__. -/
def minAngelScore : ℚ := 40.0

/-- The fields of `project_data` read by the gating check. -/
structure ProjectGateData where
  completeness_score : ℚ
  stage : Option String
  categories : List String

/-- InvestorSearchSystem.can_search_investors: rejects only when the stored
completeness score is below the 50 threshold; the stage/categories checks
are used solely to phrase the reason string. -/
def canSearchInvestors (project_data : ProjectGateData) : Bool × String :=
  if project_data.completeness_score < minCompletenessScore then
    let missing_stage := !pyTruthyS project_data.stage
    let missing_categories := project_data.categories.isEmpty
    let missing_info :=
      (if missing_stage then ["etapa del proyecto"] else []) ++
      (if missing_categories then ["categorías del negocio"] else [])
    (false, "Necesitas al menos 50% de completitud. Falta: " ++ strJoin ", " missing_info)
  else
    (true, "Proyecto listo para búsqueda de inversores")

/-! ### InvestorSearchSystem._calculate_stage_weights
(app/ai_systems/search_investors.py, lines 182-205)
-/

/-- Early-stage keywords of `_calculate_stage_weights`. -/
def earlyStageTerms : List String := ["pre-seed", "preseed", "idea", "prototype", "mvp"]

/-- Seed-stage keywords of `_calculate_stage_weights`. -/
def seedStageTerms : List String := ["seed", "semilla"]

/-- Growth-stage keywords of `_calculate_stage_weights`. -/
def growthStageTerms : List String :=
  ["series a", "series b", "serie a", "serie b", "growth", "expansion"]

/-- Late-stage keywords of `_calculate_stage_weights`. -/
def lateStageTerms : List String := ["series c", "serie c", "late stage", "mezzanine", "ipo"]

/-- InvestorSearchSystem._calculate_stage_weights, returning the pair
(angels weight, funds weight).  `if not stage` covers both None and the
empty string. -/
def calculateStageWeights (stage : Option String) : ℚ × ℚ :=
  match stage with
  | none => (0.6, 0.4)
  | some stage =>
    if stage = "" then (0.6, 0.4)
    else
      let stage_lower := strLower stage
      if anyTermIn stage_lower earlyStageTerms then (0.8, 0.2)
      else if anyTermIn stage_lower seedStageTerms then (0.6, 0.4)
      else if anyTermIn stage_lower growthStageTerms then (0.3, 0.7)
      else if anyTermIn stage_lower lateStageTerms then (0.1, 0.9)
      else (0.6, 0.4)

/-! ### LibrarianBot (app/ai_systems/librarian.py)

The profile model follows app/models/user.py restricted to the fields the
librarian pipeline reads or writes: the extraction prompt of
`_extract_project_info` produces the keys categories, stage,
problem_solved, solution, target_market, business_model, and the nested
dictionaries metrics {revenue, users, growth_rate}, team_info
{size, founders, experience} and funding_info {funding_stage,
amount_raised, target_amount}.  `_calculate_completeness` reads exactly
these fields.  Numeric values arrive from the JSON oracle as strings, so
every scalar value is modelled as a string.  In extraction records a field
of value `none` means the key is absent from the Python dictionary.
-/

/-- app/models/user.py ProjectMetrics, restricted to the sub-fields the
librarian writes and the completeness score reads. -/
structure ProjectMetrics where
  revenue : Option String := none
  users : Option String := none
  growth_rate : Option String := none
deriving DecidableEq

/-- app/models/user.py TeamInfo, restricted to the sub-fields the librarian
writes and the completeness score reads.  `founders` defaults to the empty
list, matching `Field(default_factory=list)`.  The model has no
`experience` attribute, so `hasattr` fails for that extraction key. -/
structure TeamInfo where
  size : Option String := none
  founders : List String := []
deriving DecidableEq

/-- app/models/user.py FundingInfo, restricted to the sub-fields the
librarian writes. -/
structure FundingInfo where
  funding_stage : Option String := none
  amount_raised : Option String := none
  target_amount : Option String := none
deriving DecidableEq

/-- app/models/user.py ProjectData, restricted to the fields the librarian
pipeline touches. -/
structure ProjectData where
  categories : Option (List String) := none
  stage : Option String := none
  problem_solved : Option String := none
  solution : Option String := none
  target_market : Option String := none
  business_model : Option String := none
  metrics : Option ProjectMetrics := none
  team_info : Option TeamInfo := none
  funding_info : Option FundingInfo := none
deriving DecidableEq

/-- The raw `metrics` dictionary of an extraction (a key with value `none`
is absent from the dictionary). -/
structure ExtractedMetrics where
  revenue : Option String := none
  users : Option String := none
  growth_rate : Option String := none
deriving DecidableEq

/-- The raw `team_info` dictionary of an extraction. -/
structure ExtractedTeam where
  size : Option String := none
  founders : Option (List String) := none
  experience : Option String := none
deriving DecidableEq

/-- The raw `funding_info` dictionary of an extraction. -/
structure ExtractedFunding where
  funding_stage : Option String := none
  amount_raised : Option String := none
  target_amount : Option String := none
deriving DecidableEq

/-- An extraction dictionary as parsed from the oracle JSON (the argument
of `_clean_extracted_data` and `_merge_project_data`). -/
structure Extracted where
  categories : Option (List String) := none
  stage : Option String := none
  problem_solved : Option String := none
  solution : Option String := none
  target_market : Option String := none
  business_model : Option String := none
  metrics : Option ExtractedMetrics := none
  team_info : Option ExtractedTeam := none
  funding_info : Option ExtractedFunding := none
deriving DecidableEq

/-- Cleaning rule of `_clean_extracted_data` for a basic string field:
keep the stripped value only when the raw value and its strip are both
non-empty. -/
def cleanScalar (v : Option String) : Option String :=
  match v with
  | none => none
  | some s =>
    if s = "" then none
    else if strTrim s = "" then none else some (strTrim s)

/-- Cleaning rule of `_clean_extracted_data` for a value inside a nested
dictionary: `v is not None and v != ""` (no stripping). -/
def cleanNestedValue (v : Option String) : Option String :=
  match v with
  | none => none
  | some s => if s = "" then none else some s

/-- Python truthiness of a raw nested metrics dictionary (a dictionary is
truthy when it has at least one key). -/
def metricsRawNonempty (m : ExtractedMetrics) : Bool :=
  m.revenue.isSome || m.users.isSome || m.growth_rate.isSome

/-- Python truthiness of a raw nested team dictionary. -/
def teamRawNonempty (t : ExtractedTeam) : Bool :=
  t.size.isSome || t.founders.isSome || t.experience.isSome

/-- Python truthiness of a raw nested funding dictionary. -/
def fundingRawNonempty (f : ExtractedFunding) : Bool :=
  f.funding_stage.isSome || f.amount_raised.isSome || f.target_amount.isSome

/-- LibrarianBot._clean_extracted_data (librarian.py lines 209-246).
Basic string fields are kept stripped when non-empty, the categories list
is kept when non-empty, and each nested dictionary (kept when the raw
dictionary is truthy) is filtered value-wise by `v is not None and
v != ""`.  A list value such as `founders` always passes that filter,
because in Python a list never equals the empty string. -/
def cleanExtractedData (data : Extracted) : Extracted where
  categories :=
    match data.categories with
    | none => none
    | some l => if l.isEmpty then none else some l
  stage := cleanScalar data.stage
  problem_solved := cleanScalar data.problem_solved
  solution := cleanScalar data.solution
  target_market := cleanScalar data.target_market
  business_model := cleanScalar data.business_model
  metrics :=
    match data.metrics with
    | none => none
    | some m =>
      if metricsRawNonempty m then
        some { revenue := cleanNestedValue m.revenue
               users := cleanNestedValue m.users
               growth_rate := cleanNestedValue m.growth_rate }
      else none
  team_info :=
    match data.team_info with
    | none => none
    | some t =>
      if teamRawNonempty t then
        some { size := cleanNestedValue t.size
               founders := t.founders
               experience := cleanNestedValue t.experience }
      else none
  funding_info :=
    match data.funding_info with
    | none => none
    | some f =>
      if fundingRawNonempty f then
        some { funding_stage := cleanNestedValue f.funding_stage
               amount_raised := cleanNestedValue f.amount_raised
               target_amount := cleanNestedValue f.target_amount }
      else none

/-- The `for key, value in extracted['metrics'].items(): setattr` loop of
`_merge_project_data`: keys present in the dictionary overwrite the model
field, absent keys leave it unchanged. -/
def mergeMetrics (current : ProjectMetrics) (em : ExtractedMetrics) : ProjectMetrics where
  revenue := match em.revenue with | some v => some v | none => current.revenue
  users := match em.users with | some v => some v | none => current.users
  growth_rate := match em.growth_rate with | some v => some v | none => current.growth_rate

/-- The team_info merge loop.  The `experience` key is dropped because
`hasattr(current.team_info, "experience")` is false on the TeamInfo model
of app/models/user.py. -/
def mergeTeam (current : TeamInfo) (et : ExtractedTeam) : TeamInfo where
  size := match et.size with | some v => some v | none => current.size
  founders := match et.founders with | some l => l | none => current.founders

/-- The funding_info merge loop. -/
def mergeFunding (current : FundingInfo) (ef : ExtractedFunding) : FundingInfo where
  funding_stage :=
    match ef.funding_stage with | some v => some v | none => current.funding_stage
  amount_raised :=
    match ef.amount_raised with | some v => some v | none => current.amount_raised
  target_amount :=
    match ef.target_amount with | some v => some v | none => current.target_amount

/-- LibrarianBot._merge_project_data (librarian.py lines 248-301).  A
missing profile starts from the empty ProjectData.  Scalar keys present in
the extraction overwrite the profile field; `categories` becomes
`list(set(current + new))`, modelled by `List.dedup` of the concatenation
(Python set iteration order is unspecified, the dedup choice fixes one
representative with the same elements); a present nested dictionary first
materialises the sub-record when absent, then overwrites exactly the
supplied sub-fields.  Each update touches a distinct field, so the
sequential Python mutations are written as one record expression. -/
def mergeProjectData (current : Option ProjectData) (extracted : Extracted) : ProjectData :=
  let c := current.getD {}
  { categories :=
      match extracted.categories with
      | some new => some (((c.categories.getD []) ++ new).dedup)
      | none => c.categories
    stage := match extracted.stage with | some v => some v | none => c.stage
    problem_solved :=
      match extracted.problem_solved with | some v => some v | none => c.problem_solved
    solution := match extracted.solution with | some v => some v | none => c.solution
    target_market :=
      match extracted.target_market with | some v => some v | none => c.target_market
    business_model :=
      match extracted.business_model with | some v => some v | none => c.business_model
    metrics :=
      match extracted.metrics with
      | some em => some (mergeMetrics (c.metrics.getD {}) em)
      | none => c.metrics
    team_info :=
      match extracted.team_info with
      | some et => some (mergeTeam (c.team_info.getD {}) et)
      | none => c.team_info
    funding_info :=
      match extracted.funding_info with
      | some ef => some (mergeFunding (c.funding_info.getD {}) ef)
      | none => c.funding_info }

/-- Python truthiness of the optional categories list: None and the empty
list are falsy. -/
def catTruthy : Option (List String) → Bool
  | none => false
  | some l => !l.isEmpty

/-- LibrarianBot._calculate_completeness (librarian.py lines 303-366).
The accumulated total weight is 10+10+10+10 (basic) + 10+10 (business)
+ 20 (metrics) + 10 (team) + 10 (funding) = 80 on every path, because the
absent-sub-record branches still add the group weight.  An existing
metrics/team object scores by the fraction of its populated sub-fields; an
existing funding object scores its full weight. -/
def calculateCompleteness (p : ProjectData) : ℚ :=
  let basic : ℚ :=
    (if catTruthy p.categories then 10 else 0) +
    (if pyTruthyS p.stage then 10 else 0) +
    (if pyTruthyS p.problem_solved then 10 else 0) +
    (if pyTruthyS p.solution then 10 else 0)
  let business : ℚ :=
    (if pyTruthyS p.target_market then 10 else 0) +
    (if pyTruthyS p.business_model then 10 else 0)
  let metricsScore : ℚ :=
    match p.metrics with
    | some m =>
      (((if pyTruthyS m.revenue then 1 else 0) +
        (if pyTruthyS m.users then 1 else 0) +
        (if pyTruthyS m.growth_rate then 1 else 0) : ℚ) / 3) * 20
    | none => 0
  let teamScore : ℚ :=
    match p.team_info with
    | some t =>
      (((if pyTruthyS t.size then 1 else 0) +
        (if !t.founders.isEmpty then 1 else 0) : ℚ) / 2) * 10
    | none => 0
  let fundingScore : ℚ :=
    match p.funding_info with
    | some _ => 10
    | none => 0
  (basic + business + metricsScore + teamScore + fundingScore) / 80 * 100

/-- The values of the str enum ProjectStage (app/models/base.py). -/
def projectStageValues : List String :=
  ["idea", "prototype", "mvp", "early_revenue", "growth", "scale"]

/-- The values of the str enum ProjectCategory (app/models/base.py). -/
def projectCategoryValues : List String :=
  ["fintech", "healthtech", "edtech", "proptech", "retail", "saas",
   "marketplace", "social", "gaming", "ai", "other"]

/-- Pydantic v1 coercion of a string to an int field: `int(v)` succeeds on
an optionally signed digit string with surrounding whitespace (numeric
separators are not modelled). -/
def pyIntString (s : String) : Bool :=
  match (strTrim s).data with
  | [] => false
  | c :: rest =>
    if c = Char.ofNat 43 ∨ c = Char.ofNat 45 then
      !rest.isEmpty && rest.all Char.isDigit
    else
      (c :: rest).all Char.isDigit

/-- Do all assignments performed by `_merge_project_data` pass the
`validate_assignment` validation?  Line 268 assigns the merged category
list (every element must be a ProjectCategory value), line 272 assigns the
stage (a ProjectStage value), and the nested loops assign `users`/`size`
into int-typed fields; the free-text scalar fields, the string sub-fields
and the `founders` string list always validate. -/
def mergeAssignmentsValid (current : Option ProjectData) (extracted : Extracted) : Bool :=
  (match extracted.categories with
   | some _ => ((mergeProjectData current extracted).categories.getD []).all
       (fun c => projectCategoryValues.contains c)
   | none => true)
  && (match extracted.stage with
      | some v => projectStageValues.contains v
      | none => true)
  && (match extracted.metrics with
      | some em => (match em.users with | some v => pyIntString v | none => true)
      | none => true)
  && (match extracted.team_info with
      | some et => (match et.size with | some v => pyIntString v | none => true)
      | none => true)

/-- LibrarianBot._merge_project_data under `validate_assignment`: the merge
result when every assignment validates, and the ValidationError that the
merge lets escape otherwise (the first failing assignment raises; the
Except collapses which one). -/
def mergeProjectDataChecked (current : Option ProjectData) (extracted : Extracted) :
    Except Unit ProjectData :=
  if mergeAssignmentsValid current extracted then
    Except.ok (mergeProjectData current extracted)
  else
    Except.error ()

/-- Insert `x` before the first element `y` with `ge? x y`. -/
def insDescBy (ge? : α → α → Bool) (x : α) : List α → List α
  | [] => [x]
  | y :: ys => if ge? x y then x :: y :: ys else y :: insDescBy ge? x ys

/-- Stable sort by the total preorder `ge?` (larger elements first). -/
def sortDescBy (ge? : α → α → Bool) : List α → List α
  | [] => []
  | x :: xs => insDescBy ge? x (sortDescBy ge? xs)

/-! ### InvestorSearchSystem.search_investors
(app/ai_systems/search_investors.py, lines 61-118 and 207-324)

The Supabase queries inside `_search_angels`/`_search_funds` are
collaborator calls; their outcome (a row list, or a raised exception) is
an Except-valued input.  Row records carry the columns the ranking reads;
the contact columns copied verbatim into the result dictionaries do not
influence any claim and are represented by the name fields.
-/

/-- A row of the Angel_Investors table as selected by `_search_angels`
(columns beyond the name and score are copied through unchanged). -/
structure AngelRow where
  full_name : String
  angel_score : ℚ
deriving DecidableEq

/-- A row of the Investment_Funds table as selected by `_search_funds`. -/
structure FundRow where
  name : String
deriving DecidableEq

/-- A fund-employee record as consumed by `_combine_results`
(`emp["fund_name"]` is the only field it reads). -/
structure FundEmployee where
  fund_name : String
deriving DecidableEq

/-- An entry of the combined result list of `_combine_results`: the pool
tag, the pool-intrinsic score, the stage weight attached by the pool
search, the employees attached to a fund, and the final blended score. -/
structure RankedInvestor where
  rtype : String
  name : String
  score : ℚ
  search_weight : ℚ
  employees : List FundEmployee
  final_score : ℚ
deriving DecidableEq

/-- InvestorSearchSystem._search_angels (lines 207-248): on success every
returned row becomes an angel entry carrying the angels stage weight; any
exception is caught and yields the empty list. -/
def searchAngels (outcome : Except Unit (List AngelRow)) (weight : ℚ) : List RankedInvestor :=
  match outcome with
  | .error _ => []
  | .ok rows =>
    rows.map (fun r =>
      { rtype := "angel", name := r.full_name, score := r.angel_score,
        search_weight := weight, employees := [], final_score := 0 })

/-- InvestorSearchSystem._search_funds (lines 250-284): same failure
handling as the angel search. -/
def searchFunds (outcome : Except Unit (List FundRow)) (weight : ℚ) : List RankedInvestor :=
  match outcome with
  | .error _ => []
  | .ok rows =>
    rows.map (fun r =>
      { rtype := "fund", name := r.name, score := 0,
        search_weight := weight, employees := [], final_score := 0 })

/-- InvestorSearchSystem._get_fund_employees (lines 286-295): the current
implementation always returns the empty list. -/
def getFundEmployees (_funds : List RankedInvestor) : List FundEmployee := []

/-- The sort key comparison of `_combine_results`:
`key=lambda x: x["final_score"]` with `reverse=True`. -/
def finalScoreGE (x y : RankedInvestor) : Bool := y.final_score ≤ x.final_score

/-- InvestorSearchSystem._combine_results (lines 297-324).  Angels receive
`final_score = score * weights["angels"]`; each fund receives up to five
matching employees, the intrinsic score `min(50 + 5 * employee_count,
100)` and `final_score = score * weights["funds"]`; the concatenated list
is sorted by final score descending (Python sort, stable) and truncated
to the top 15. -/
def combineResults (angels funds : List RankedInvestor) (employees : List FundEmployee)
    (weights : ℚ × ℚ) : List RankedInvestor :=
  let scoredAngels := angels.map (fun a => { a with final_score := a.score * weights.1 })
  let scoredFunds := funds.map (fun f =>
    let fund_employees := employees.filter (fun emp => emp.fund_name == f.name)
    let score := min (50 + 5 * (fund_employees.length : ℚ)) 100
    { f with employees := fund_employees.take 5, score := score,
             final_score := score * weights.2 })
  (sortDescBy finalScoreGE (scoredAngels ++ scoredFunds)).take 15

/-- The response dictionary of InvestorSearchSystem.search_investors
(lines 101-112), without the wall-clock processing time and timestamp of
`search_metadata`. -/
structure InvestorSearchResponse where
  results : List RankedInvestor
  total_angels : ℕ
  total_funds : ℕ
  keywords_used : List String
  stage_weights : ℚ × ℚ
  conversation_id : String
deriving DecidableEq

/-- InvestorSearchSystem.search_investors (lines 61-118) as a function of
the keyword list (the Gemini keyword extraction catches its own failures
and always produces a list) and the two pool outcomes.  Both pool
searches catch their own exceptions, so the body raises nothing and the
outer `except ... raise` is never taken. -/
def searchInvestors (keywords : List String) (stage : Option String)
    (conversation_id : String)
    (angelsOutcome : Except Unit (List AngelRow))
    (fundsOutcome : Except Unit (List FundRow)) : InvestorSearchResponse :=
  let stage_weights := calculateStageWeights stage
  let angels_results := searchAngels angelsOutcome stage_weights.1
  let funds_results := searchFunds fundsOutcome stage_weights.2
  let fund_employees := getFundEmployees funds_results
  let final_results := combineResults angels_results funds_results fund_employees stage_weights
  { results := final_results
    total_angels := angels_results.length
    total_funds := funds_results.length
    keywords_used := keywords
    stage_weights := stage_weights
    conversation_id := conversation_id }

/-! ### InvestorSearchEngine._combine_search_results
(app/search/investor_search.py, lines 251-308)

Angels and funds arrive as row dictionaries; the combine step attaches
`score` (the angel score for angels, the relevance score for funds) and
`relevance_score`, then sorts by the key tuple
`(relevance_score, score)` descending.
-/

/-- An angel row as consumed by `_combine_search_results`
(`angel.get("angel_score", 0)` and `angel.get("relevance_score", 0)`). -/
structure EngineAngelRow where
  fullname : String
  angel_score : ℚ
  relevance_score : ℚ
deriving DecidableEq

/-- A fund row as consumed by `_combine_search_results`. -/
structure EngineFundRow where
  name : String
  relevance_score : ℚ
deriving DecidableEq

/-- An entry of the combined list of `_combine_search_results`. -/
structure EngineSearchItem where
  investor_type : String
  display_name : String
  score : ℚ
  relevance_score : ℚ
deriving DecidableEq

/-- The sort key comparison of `_combine_search_results`: Python tuple
order on `(relevance_score, score)`, descending and stable. -/
def engineSortGE (a b : EngineSearchItem) : Bool :=
  decide (b.relevance_score < a.relevance_score) ||
    (decide (b.relevance_score = a.relevance_score) && decide (b.score ≤ a.score))

/-- InvestorSearchEngine._combine_search_results. -/
def combineSearchResults (angels : List EngineAngelRow)
    (funds : List EngineFundRow) : List EngineSearchItem :=
  let angelItems := angels.map (fun a =>
    { investor_type := "angel", display_name := a.fullname,
      score := a.angel_score, relevance_score := a.relevance_score })
  let fundItems := funds.map (fun f =>
    { investor_type := "fund", display_name := f.name,
      score := f.relevance_score, relevance_score := f.relevance_score })
  sortDescBy engineSortGE (angelItems ++ fundItems)

/-! ### JudgeSystem.analyze_user_intent
(app/ai_systems/judge_system.py, lines 65-140, 318-351, 353-388)

`_parse_gemini_response` raises ValueError for any response text that
json.loads cannot parse or that misses a required field; the outcome of
the Gemini call plus that parse is modelled as an Except value.  The
decision enhancement performed by the DecisionEngine collaborator (module
not part of the sources) is a function parameter; it is irrelevant on the
failure path, where `analyze_user_intent` catches every exception and
answers with `_create_fallback_decision`.
-/

/-- The probabilities block of a judge decision
(app/models JudgeProbabilities). -/
structure JudgeProbabilities where
  chat : ℚ
  search_investors : ℚ
  search_companies : ℚ
  welcome : ℚ
  upsell : ℚ
  completeness : ℚ
deriving DecidableEq

/-- A judge decision (app/models JudgeDecision restricted to the fields
the fallback constructs). -/
structure JudgeDecision where
  decision : String
  confidence : ℚ
  reasoning : String
  probabilities : JudgeProbabilities
  urgency_level : ℕ
deriving DecidableEq

/-- The validated dictionary produced by a successful
`_parse_gemini_response` (passed through to the decision engine; its
contents are irrelevant to the failure-path claims). -/
structure DecisionData where
  decision : String
  confidence : ℚ
deriving DecidableEq

/-- JudgeSystem._create_fallback_decision (lines 353-388): keyword-based
fallback over the lowered user message. -/
def createFallbackDecision (user_message : String) : JudgeDecision :=
  let message_lower := strLower user_message
  let pick :=
    if anyTermIn message_lower ["inversor", "investment", "funding", "capital"] then
      ("search_investors", (0.6 : ℚ))
    else if anyTermIn message_lower ["empresa", "servicio", "company", "service"] then
      ("search_companies", (0.6 : ℚ))
    else
      ("chat", (0.8 : ℚ))
  { decision := pick.1
    confidence := pick.2
    reasoning := "Fallback decision based on keyword analysis"
    probabilities :=
      { chat := if pick.1 = "chat" then 0.8 else 0.2
        search_investors := if pick.1 = "search_investors" then 0.6 else 0.1
        search_companies := if pick.1 = "search_companies" then 0.6 else 0.1
        welcome := 0.05
        upsell := 0.05
        completeness := 0.1 }
    urgency_level := 3 }

/-- JudgeSystem.analyze_user_intent (lines 65-140) as a function of the
oracle-and-parse outcome: on success the parsed data goes to the decision
engine collaborator `enhance`; any raised exception (including the
ValueError of `_parse_gemini_response` on unparsable text) is caught and
converted to the keyword fallback. -/
def analyzeUserIntent (enhance : DecisionData → JudgeDecision) (user_message : String)
    (oracleOutcome : Except Unit DecisionData) : JudgeDecision :=
  match oracleOutcome with
  | .ok data => enhance data
  | .error _ => createFallbackDecision user_message

/-! ### WebSocketManager (app/api/websockets/manager.py)

Events are JSON dictionaries; the fan-out mutates them by adding the
`queued_at` key when queueing and the `replayed` key when replaying.  A
message is therefore modelled as its original payload plus those two
bookkeeping fields (absent in every freshly published event). -/

/-- A broadcast message: the published payload, plus the two keys the
fan-out itself may add. -/
structure WsMessage where
  payload : String
  queued_at : Option String := none
  replayed : Bool := false
deriving DecidableEq

/-- `self.max_queue_size = 100` from WebSocketManager.__init__. -/
def maxQueueSize : ℕ := 100

/-- WebSocketManager._queue_message (lines 464-479): stamp `queued_at`,
append, and keep only the newest `max_queue_size` entries
(`queue[-self.max_queue_size:]`). -/
def queueMessage (queue : List WsMessage) (now : String) (message : WsMessage) :
    List WsMessage :=
  let message := { message with queued_at := some now }
  let queue := queue ++ [message]
  if maxQueueSize < queue.length then queue.drop (queue.length - maxQueueSize) else queue

/-- WebSocketManager._send_queued_messages (lines 481-498): send every
queued message in order with `replayed = True` added, then clear the
queue.  The first component is the delivered sequence, the second the
queue afterwards. -/
def sendQueuedMessages (queue : List WsMessage) : List WsMessage × List WsMessage :=
  (queue.map (fun m => { m with replayed := true }), [])

/-- WebSocketManager.broadcast_to_conversation (lines 114-146) for one
conversation: with no active connection the message is queued; otherwise
it is sent as-is to every connection.  Connections are identified by
numbers; the first component lists (connection, delivered message) pairs,
the second is the replay queue afterwards. -/
def broadcastToConversation (connections : List ℕ) (queue : List WsMessage)
    (now : String) (message : WsMessage) : List (ℕ × WsMessage) × List WsMessage :=
  if connections.isEmpty then
    ([], queueMessage queue now message)
  else
    (connections.map (fun c => (c, message)), queue)

/-! ## Theorems -/

/-! ### Ordering lemmas for the stable descending sort -/

theorem mem_insDescBy {α : Type} {ge? : α → α → Bool} {x z : α} {l : List α} :
    z ∈ insDescBy ge? x l ↔ z = x ∨ z ∈ l := by
  induction l with
  | nil => simp [insDescBy]
  | cons y ys ih =>
    simp only [insDescBy]
    split
    · simp
    · simp [ih]
      tauto

theorem mem_sortDescBy {α : Type} {ge? : α → α → Bool} {z : α} {l : List α} :
    z ∈ sortDescBy ge? l ↔ z ∈ l := by
  induction l with
  | nil => simp [sortDescBy]
  | cons y ys ih => simp [sortDescBy, mem_insDescBy, ih]

theorem pairwise_insDescBy {α : Type} {ge? : α → α → Bool}
    (htot : ∀ a b, ge? a b = true ∨ ge? b a = true)
    (htrans : ∀ a b c, ge? a b = true → ge? b c = true → ge? a c = true)
    (x : α) {l : List α} (h : l.Pairwise (fun a b => ge? a b = true)) :
    (insDescBy ge? x l).Pairwise (fun a b => ge? a b = true) := by
  induction l with
  | nil => simp [insDescBy]
  | cons y ys ih =>
    rcases List.pairwise_cons.mp h with ⟨hy, hys⟩
    simp only [insDescBy]
    by_cases hxy : ge? x y = true
    · rw [if_pos hxy]
      refine List.pairwise_cons.mpr ⟨?_, h⟩
      intro z hz
      rcases List.mem_cons.mp hz with rfl | hz
      · exact hxy
      · exact htrans x y z hxy (hy z hz)
    · rw [if_neg hxy]
      refine List.pairwise_cons.mpr ⟨?_, ih hys⟩
      intro z hz
      rcases mem_insDescBy.mp hz with hzx | hz
      · rw [hzx]
        exact (htot x y).resolve_left hxy
      · exact hy z hz

theorem pairwise_sortDescBy {α : Type} {ge? : α → α → Bool}
    (htot : ∀ a b, ge? a b = true ∨ ge? b a = true)
    (htrans : ∀ a b c, ge? a b = true → ge? b c = true → ge? a c = true)
    (l : List α) :
    (sortDescBy ge? l).Pairwise (fun a b => ge? a b = true) := by
  induction l with
  | nil => simp [sortDescBy]
  | cons y ys ih => exact pairwise_insDescBy htot htrans y ih

theorem finalScoreGE_total (a b : RankedInvestor) :
    finalScoreGE a b = true ∨ finalScoreGE b a = true := by
  simp [finalScoreGE]
  exact le_total b.final_score a.final_score

theorem finalScoreGE_trans (a b c : RankedInvestor) :
    finalScoreGE a b = true → finalScoreGE b c = true → finalScoreGE a c = true := by
  simp [finalScoreGE]
  exact fun h1 h2 => le_trans h2 h1

theorem engineSortGE_iff (a b : EngineSearchItem) :
    engineSortGE a b = true
      ↔ (b.relevance_score < a.relevance_score
          ∨ (b.relevance_score = a.relevance_score ∧ b.score ≤ a.score)) := by
  simp [engineSortGE]

theorem engineSortGE_total (a b : EngineSearchItem) :
    engineSortGE a b = true ∨ engineSortGE b a = true := by
  rw [engineSortGE_iff, engineSortGE_iff]
  rcases lt_trichotomy a.relevance_score b.relevance_score with h | h | h
  · exact Or.inr (Or.inl h)
  · rcases le_total b.score a.score with hs | hs
    · exact Or.inl (Or.inr ⟨h.symm, hs⟩)
    · exact Or.inr (Or.inr ⟨h, hs⟩)
  · exact Or.inl (Or.inl h)

theorem engineSortGE_trans (a b c : EngineSearchItem) :
    engineSortGE a b = true → engineSortGE b c = true → engineSortGE a c = true := by
  rw [engineSortGE_iff, engineSortGE_iff, engineSortGE_iff]
  rintro (h1 | ⟨h1, h1s⟩) (h2 | ⟨h2, h2s⟩)
  · exact Or.inl (lt_trans h2 h1)
  · exact Or.inl (h2 ▸ h1)
  · exact Or.inl (h1 ▸ h2)
  · exact Or.inr ⟨h2.trans h1, le_trans h2s h1s⟩

/-! ### Claim C1 -/

/-- C1 counterexample: the claim states that a profile with empty stage or
empty categories is rejected even when completeness is at least 50; the
code accepts the profile with completeness 60, missing stage and empty
categories (allowed = true), so the claimed gating condition is false at
this input. -/
theorem c1_gate_counterexample :
    (canSearchInvestors ⟨60, none, []⟩).1 = true
    ∧ pyTruthyS (⟨60, none, []⟩ : ProjectGateData).stage = false
    ∧ (⟨60, none, []⟩ : ProjectGateData).categories.isEmpty = true :=
  ⟨by norm_num [canSearchInvestors, minCompletenessScore], by decide, by decide⟩

/-- C1 (amended): `can_search_investors` allows the search exactly when the
stored completeness score reaches the 50 threshold, regardless of stage
and categories; on rejection the reason string is non-empty and names the
project stage respectively the business categories exactly when that field
is missing. -/
theorem c1_gate_amended (p : ProjectGateData) :
    ((canSearchInvestors p).1 = true ↔ minCompletenessScore ≤ p.completeness_score)
    ∧ ((canSearchInvestors p).1 = false → ((canSearchInvestors p).2).data ≠ [])
    ∧ (p.completeness_score < minCompletenessScore → pyTruthyS p.stage = false →
        strContains (canSearchInvestors p).2 "etapa del proyecto" = true)
    ∧ (p.completeness_score < minCompletenessScore → p.categories.isEmpty = true →
        strContains (canSearchInvestors p).2 "categorías del negocio" = true) := by
  rcases lt_or_le p.completeness_score minCompletenessScore with hlt | hge
  · cases hst : pyTruthyS p.stage <;> cases hc : p.categories.isEmpty <;>
      simp only [canSearchInvestors, if_pos hlt, hst, hc] <;>
      refine ⟨by simp [not_le.mpr hlt], by decide, fun _ h => ?_, fun _ h => ?_⟩ <;>
      first
        | decide
        | (exact absurd h (by simp [hst]))
        | (exact absurd h (by simp [hc]))
  · have hni : ¬ p.completeness_score < minCompletenessScore := not_lt.mpr hge
    simp only [canSearchInvestors, if_neg hni]
    exact ⟨by simpa using hge, by simp, fun h _ => absurd h hni, fun h _ => absurd h hni⟩

/-- C1 witness: a profile with completeness 10 and no stage is rejected
with a reason naming the project stage. -/
theorem c1_gate_witness :
    strContains (canSearchInvestors ⟨10, none, ["fintech"]⟩).2 "etapa del proyecto" = true :=
  (c1_gate_amended ⟨10, none, ["fintech"]⟩).2.2.1 (by norm_num [minCompletenessScore]) (by decide)

/-! ### Claim C2 -/

/-- C2 counterexample: the claim maps an unknown stage to (0.5, 0.5); the
code returns (0.6, 0.4) for the unmatched stage string "unknown". -/
theorem c2_weights_counterexample :
    calculateStageWeights (some "unknown") = (0.6, 0.4)
    ∧ ((0.6 : ℚ), (0.4 : ℚ)) ≠ ((0.5 : ℚ), (0.5 : ℚ)) :=
  ⟨rfl, by norm_num⟩

/-- C2 (amended): `_calculate_stage_weights` is total, always returns a
pair summing to 1, maps the four keyword bands in priority order to
(0.8, 0.2), (0.6, 0.4), (0.3, 0.7) and (0.1, 0.9), and maps a missing,
empty or unmatched stage to the default (0.6, 0.4), not (0.5, 0.5). -/
theorem c2_weights_amended (stage : Option String) :
    ((calculateStageWeights stage).1 + (calculateStageWeights stage).2 = 1)
    ∧ ((stage = none ∨ stage = some "") → calculateStageWeights stage = (0.6, 0.4))
    ∧ (∀ s, stage = some s → s ≠ "" →
        (anyTermIn (strLower s) earlyStageTerms = true →
          calculateStageWeights stage = (0.8, 0.2))
        ∧ (anyTermIn (strLower s) earlyStageTerms = false →
            anyTermIn (strLower s) seedStageTerms = true →
          calculateStageWeights stage = (0.6, 0.4))
        ∧ (anyTermIn (strLower s) earlyStageTerms = false →
            anyTermIn (strLower s) seedStageTerms = false →
            anyTermIn (strLower s) growthStageTerms = true →
          calculateStageWeights stage = (0.3, 0.7))
        ∧ (anyTermIn (strLower s) earlyStageTerms = false →
            anyTermIn (strLower s) seedStageTerms = false →
            anyTermIn (strLower s) growthStageTerms = false →
            anyTermIn (strLower s) lateStageTerms = true →
          calculateStageWeights stage = (0.1, 0.9))
        ∧ (anyTermIn (strLower s) earlyStageTerms = false →
            anyTermIn (strLower s) seedStageTerms = false →
            anyTermIn (strLower s) growthStageTerms = false →
            anyTermIn (strLower s) lateStageTerms = false →
          calculateStageWeights stage = (0.6, 0.4))) := by
  refine ⟨?_, ?_, ?_⟩
  · unfold calculateStageWeights
    cases stage with
    | none => norm_num
    | some s =>
      dsimp only
      split_ifs <;> norm_num
  · rintro (rfl | rfl) <;> rfl
  · rintro s rfl hne
    simp only [calculateStageWeights, if_neg hne]
    exact ⟨fun h1 => by simp [h1],
           fun h1 h2 => by simp [h1, h2],
           fun h1 h2 h3 => by simp [h1, h2, h3],
           fun h1 h2 h3 h4 => by simp [h1, h2, h3, h4],
           fun h1 h2 h3 h4 => by simp [h1, h2, h3, h4]⟩

/-- C2 witness: the stage string "mvp" lies in the earliest band and gets
the weights (0.8, 0.2). -/
theorem c2_weights_witness :
    calculateStageWeights (some "mvp") = (0.8, 0.2) :=
  ((c2_weights_amended (some "mvp")).2.2 "mvp" rfl (by decide)).1 (by decide)

/-! ### Claim C3 -/

/-- C3 counterexample: the claim requires the response of a search in
which both pools fail to carry a distinguishable PartialFailure or
TotalFailure status; the response of a total failure is identical to the
response of a successful search over two empty pools, so no such status
exists anywhere in the response. -/
theorem c3_failure_counterexample :
    searchInvestors ["fintech"] (some "seed") "conv-1" (.error ()) (.error ())
      = searchInvestors ["fintech"] (some "seed") "conv-1" (.ok []) (.ok []) := rfl

/-- C3 (amended): when exactly one pool fails, `search_investors` returns
the ranked results of the surviving pool only and never raises (each pool
search catches its own exception and contributes the empty list, so a
failed pool behaves exactly like an empty one); when both pools fail the
result list is empty, but the response carries no failure status. -/
theorem c3_failure_amended (keywords : List String) (stage : Option String)
    (cid : String) (angelRows : List AngelRow) (fundRows : List FundRow) :
    (searchInvestors keywords stage cid (.ok angelRows) (.error ())
        = searchInvestors keywords stage cid (.ok angelRows) (.ok []))
    ∧ (searchInvestors keywords stage cid (.error ()) (.ok fundRows)
        = searchInvestors keywords stage cid (.ok []) (.ok fundRows))
    ∧ (∀ r ∈ (searchInvestors keywords stage cid (.ok angelRows) (.error ())).results,
        r.rtype = "angel")
    ∧ (∀ r ∈ (searchInvestors keywords stage cid (.error ()) (.ok fundRows)).results,
        r.rtype = "fund")
    ∧ (searchInvestors keywords stage cid (.error ()) (.error ())).results = [] := by
  refine ⟨rfl, rfl, ?_, ?_, rfl⟩
  · intro r hr
    simp only [searchInvestors, searchAngels, searchFunds, getFundEmployees,
               combineResults, List.map_nil, List.append_nil] at hr
    have hr2 := List.take_subset _ _ hr
    rw [mem_sortDescBy] at hr2
    simp only [List.mem_map] at hr2
    obtain ⟨a, ⟨row, _, rfl⟩, rfl⟩ := hr2
    rfl
  · intro r hr
    simp only [searchInvestors, searchAngels, searchFunds, getFundEmployees,
               combineResults, List.map_nil, List.nil_append] at hr
    have hr2 := List.take_subset _ _ hr
    rw [mem_sortDescBy] at hr2
    simp only [List.mem_map] at hr2
    obtain ⟨a, ⟨row, _, rfl⟩, rfl⟩ := hr2
    rfl

/-- C3 witness: with a failed angel pool and one fund row the single
returned result is tagged as a fund. -/
theorem c3_failure_witness :
    ({ rtype := "fund", name := "FondoX", score := 50, search_weight := 0.4,
       employees := [], final_score := 20 } : RankedInvestor).rtype = "fund" :=
  (c3_failure_amended ["kw"] none "c" [] [⟨"FondoX"⟩]).2.2.2.1 _
    (by norm_num [searchInvestors, searchAngels, searchFunds, getFundEmployees,
                  combineResults, calculateStageWeights, sortDescBy, insDescBy,
                  List.take])

/-! ### Claim C4 -/

/-- C5 counterexample: the claim states that an unparsable oracle response
makes the classifier return intent "general_conversation" with confidence
0.5; the code instead answers with the keyword fallback, which for the
message "hola" is the decision "chat" with confidence 0.8. -/
theorem c5_classifier_counterexample :
    ((analyzeUserIntent (fun d => ⟨d.decision, d.confidence, "", ⟨0, 0, 0, 0, 0, 0⟩, 0⟩)
        "hola" (.error ())).decision = "chat")
    ∧ ((analyzeUserIntent (fun d => ⟨d.decision, d.confidence, "", ⟨0, 0, 0, 0, 0, 0⟩, 0⟩)
        "hola" (.error ())).confidence = 0.8)
    ∧ "chat" ≠ "general_conversation"
    ∧ ((0.8 : ℚ) ≠ 0.5) :=
  ⟨rfl, rfl, by decide, by norm_num⟩

/-- C5 (amended): the classifier never propagates the parse exception --
every failure outcome is converted into `_create_fallback_decision`, whose
answer is keyword based: either search_investors with confidence 0.6,
search_companies with confidence 0.6, or chat with confidence 0.8; the
default "general_conversation"/0.5 of the claim appears nowhere. -/
theorem c5_classifier_amended (enhance : DecisionData → JudgeDecision) (msg : String) :
    (analyzeUserIntent enhance msg (.error ()) = createFallbackDecision msg)
    ∧ (((createFallbackDecision msg).decision = "search_investors"
          ∧ (createFallbackDecision msg).confidence = 0.6)
       ∨ ((createFallbackDecision msg).decision = "search_companies"
          ∧ (createFallbackDecision msg).confidence = 0.6)
       ∨ ((createFallbackDecision msg).decision = "chat"
          ∧ (createFallbackDecision msg).confidence = 0.8)) := by
  refine ⟨rfl, ?_⟩
  unfold createFallbackDecision
  dsimp only
  split_ifs with h1 h2 <;> simp

/-! ### Claim C6 -/

/-- C6 counterexample: the claim requires equal blended scores to be
ordered by pool-intrinsic score descending; `_combine_results` sorts by
final score only, so an angel with intrinsic score 40 (final 40 x 0.6 =
24) stays in front of a fund with intrinsic score 60 (two qualifying
employees, final 60 x 0.4 = 24), an ascending intrinsic order on a tie. -/
theorem c6_ordering_counterexample :
    ((combineResults [⟨"angel", "Ana", 40, 0.6, [], 0⟩]
        [⟨"fund", "FondoX", 0, 0.4, [], 0⟩]
        [⟨"FondoX"⟩, ⟨"FondoX"⟩] (0.6, 0.4)).map
          (fun r => (r.rtype, r.score, r.final_score))
      = [("angel", (40 : ℚ), (24 : ℚ)), ("fund", (60 : ℚ), (24 : ℚ))])
    ∧ (40 : ℚ) < 60 := by
  constructor
  · norm_num [combineResults, sortDescBy, insDescBy, finalScoreGE, List.filter, List.take]
  · norm_num

/-- C6 (amended): both combine steps return lists sorted descending by
their blended score: `_combine_results` by final score with ties left in
insertion order (no intrinsic-score tie-break), and
`_combine_search_results` by relevance score with ties ordered descending
by the type-specific score. -/
theorem c6_ordering_amended (angels funds : List RankedInvestor)
    (employees : List FundEmployee) (weights : ℚ × ℚ)
    (eangels : List EngineAngelRow) (efunds : List EngineFundRow) :
    ((combineResults angels funds employees weights).Pairwise
        (fun a b => b.final_score ≤ a.final_score))
    ∧ ((combineSearchResults eangels efunds).Pairwise
        (fun a b => b.relevance_score < a.relevance_score
          ∨ (b.relevance_score = a.relevance_score ∧ b.score ≤ a.score))) := by
  constructor
  · unfold combineResults
    refine List.Pairwise.sublist (List.take_sublist _ _) ?_
    refine (pairwise_sortDescBy finalScoreGE_total finalScoreGE_trans _).imp ?_
    intro a b h
    simpa [finalScoreGE] using h
  · unfold combineSearchResults
    refine (pairwise_sortDescBy engineSortGE_total engineSortGE_trans _).imp ?_
    intro a b h
    exact (engineSortGE_iff a b).mp h

/-! ### Claim C7 -/

/-- The values of the ProjectCategory enum are lowercase, so two distinct
representable categories are never case-insensitively equal. -/
theorem projectCategoryValues_lowercase :
    ∀ c ∈ projectCategoryValues, strLower c = c := by decide

/-- C7 counterexample: the claim requires every existing non-empty nested
sub-field to be preserved when the extraction supplies no non-empty
replacement for it; the extraction team_info {"founders": []} passes the
nested cleaning filter (an empty list is neither None nor the empty
string), is a valid assignment to the List[str] field founders, and
overwrites the existing non-empty founder list with the empty list. -/
theorem c7_merge_counterexample :
    (mergeProjectDataChecked (some { team_info := some { size := none, founders := ["Ana"] } })
        (cleanExtractedData { team_info := some { founders := some [] } })
      = Except.ok { team_info := some { size := none, founders := [] } })
    ∧ (["Ana"] : List String) ≠ [] :=
  ⟨rfl, by decide⟩

/-- C7 (amended): under the pydantic validation of the source models, a
merge whose assignments all validate unions the categories with the
existing ones under exact-value de-duplication -- and because every
representable category is a canonical lowercase ProjectCategory value,
the merged list never holds two distinct case-insensitively equal
entries, so exact and case-insensitive de-duplication coincide on the
representable domain; a non-canonical extracted stage or category value
instead makes the merge raise ValidationError.  Free-text scalar fields
are replaced exactly when the extraction supplies a value with non-empty
strip; the string-typed nested sub-fields of metrics and funding are
preserved unless the extraction supplies a non-empty replacement; the
list sub-field founders is replaced whenever the key is supplied, even by
an empty list (the counterexample).  The int-typed sub-fields users and
size undergo integer coercion and are outside this statement. -/
theorem c7_merge_amended (p : ProjectData) (e : Extracted) :
    (∀ m, mergeProjectDataChecked (some p) (cleanExtractedData e) = Except.ok m →
      ((∀ c, c ∈ m.categories.getD []
          ↔ (c ∈ p.categories.getD [] ∨ c ∈ e.categories.getD []))
       ∧ (m.stage = if pyTruthyS (e.stage.map strTrim) then e.stage.map strTrim else p.stage)
       ∧ (m.problem_solved
            = if pyTruthyS (e.problem_solved.map strTrim) then e.problem_solved.map strTrim
              else p.problem_solved)
       ∧ (m.solution
            = if pyTruthyS (e.solution.map strTrim) then e.solution.map strTrim
              else p.solution)
       ∧ (m.target_market
            = if pyTruthyS (e.target_market.map strTrim) then e.target_market.map strTrim
              else p.target_market)
       ∧ (m.business_model
            = if pyTruthyS (e.business_model.map strTrim) then e.business_model.map strTrim
              else p.business_model)
       ∧ (m.metrics.bind (fun x => x.revenue)
            = match cleanNestedValue (e.metrics.bind (fun x => x.revenue)) with
              | some v => some v
              | none => p.metrics.bind (fun x => x.revenue))
       ∧ (m.metrics.bind (fun x => x.growth_rate)
            = match cleanNestedValue (e.metrics.bind (fun x => x.growth_rate)) with
              | some v => some v
              | none => p.metrics.bind (fun x => x.growth_rate))
       ∧ ((m.team_info.map (fun t => t.founders)).getD []
            = match e.team_info.bind (fun t => t.founders) with
              | some l => l
              | none => (p.team_info.map (fun t => t.founders)).getD [])
       ∧ (m.funding_info.bind (fun f => f.funding_stage)
            = match cleanNestedValue (e.funding_info.bind (fun f => f.funding_stage)) with
              | some v => some v
              | none => p.funding_info.bind (fun f => f.funding_stage))
       ∧ (m.funding_info.bind (fun f => f.amount_raised)
            = match cleanNestedValue (e.funding_info.bind (fun f => f.amount_raised)) with
              | some v => some v
              | none => p.funding_info.bind (fun f => f.amount_raised))
       ∧ (m.funding_info.bind (fun f => f.target_amount)
            = match cleanNestedValue (e.funding_info.bind (fun f => f.target_amount)) with
              | some v => some v
              | none => p.funding_info.bind (fun f => f.target_amount))))
    ∧ ((p.categories.getD []).all (fun c => projectCategoryValues.contains c) = true →
        ∀ m, mergeProjectDataChecked (some p) (cleanExtractedData e) = Except.ok m →
          ∀ a ∈ m.categories.getD [], ∀ b ∈ m.categories.getD [],
            strLower a = strLower b → a = b)
    ∧ (∀ s, (cleanExtractedData e).stage = some s →
        projectStageValues.contains s = false →
        mergeProjectDataChecked (some p) (cleanExtractedData e) = Except.error ())
    ∧ (∀ c, c ∈ (cleanExtractedData e).categories.getD [] →
        projectCategoryValues.contains c = false →
        mergeProjectDataChecked (some p) (cleanExtractedData e) = Except.error ()) := by
  have hokEq : ∀ m, mergeProjectDataChecked (some p) (cleanExtractedData e) = Except.ok m →
      mergeAssignmentsValid (some p) (cleanExtractedData e) = true
        ∧ m = mergeProjectData (some p) (cleanExtractedData e) := by
    intro m hm
    unfold mergeProjectDataChecked at hm
    by_cases hc : mergeAssignmentsValid (some p) (cleanExtractedData e) = true
    · rw [if_pos hc] at hm
      refine ⟨hc, ?_⟩
      cases hm
      rfl
    · rw [if_neg hc] at hm
      exact absurd hm (by simp)
  refine ⟨?_, ?_, ?_, ?_⟩
  · intro m hm
    obtain ⟨-, rfl⟩ := hokEq m hm
    refine ⟨?_, ?_, ?_, ?_, ?_, ?_, ?_, ?_, ?_, ?_, ?_, ?_⟩
    · intro c
      rcases he : e.categories with _ | l
      · simp [mergeProjectData, cleanExtractedData, he]
      · by_cases hl : l = []
        · subst hl
          simp [mergeProjectData, cleanExtractedData, he]
        · have hl' : l.isEmpty = false := by simp [List.isEmpty_iff, hl]
          simp [mergeProjectData, cleanExtractedData, he, hl', List.mem_dedup]
    · rcases he : e.stage with _ | v
      · simp [mergeProjectData, cleanExtractedData, cleanScalar, he, pyTruthyS]
      · by_cases ht : strTrim v = ""
        · by_cases hv0 : v = ""
          · subst hv0
            simp [mergeProjectData, cleanExtractedData, cleanScalar, he, ht, pyTruthyS]
          · simp [mergeProjectData, cleanExtractedData, cleanScalar, he, ht, hv0, pyTruthyS]
        · have hv : v ≠ "" := by
            intro h
            subst h
            exact ht rfl
          have hd : ¬ (strTrim v).data.isEmpty = true := by
            simp only [List.isEmpty_iff]
            intro h
            exact ht (String.ext h)
          simp [mergeProjectData, cleanExtractedData, cleanScalar, he, ht, hv, pyTruthyS, hd]
    · rcases he : e.problem_solved with _ | v
      · simp [mergeProjectData, cleanExtractedData, cleanScalar, he, pyTruthyS]
      · by_cases ht : strTrim v = ""
        · by_cases hv0 : v = ""
          · subst hv0
            simp [mergeProjectData, cleanExtractedData, cleanScalar, he, ht, pyTruthyS]
          · simp [mergeProjectData, cleanExtractedData, cleanScalar, he, ht, hv0, pyTruthyS]
        · have hv : v ≠ "" := by
            intro h
            subst h
            exact ht rfl
          have hd : ¬ (strTrim v).data.isEmpty = true := by
            simp only [List.isEmpty_iff]
            intro h
            exact ht (String.ext h)
          simp [mergeProjectData, cleanExtractedData, cleanScalar, he, ht, hv, pyTruthyS, hd]
    · rcases he : e.solution with _ | v
      · simp [mergeProjectData, cleanExtractedData, cleanScalar, he, pyTruthyS]
      · by_cases ht : strTrim v = ""
        · by_cases hv0 : v = ""
          · subst hv0
            simp [mergeProjectData, cleanExtractedData, cleanScalar, he, ht, pyTruthyS]
          · simp [mergeProjectData, cleanExtractedData, cleanScalar, he, ht, hv0, pyTruthyS]
        · have hv : v ≠ "" := by
            intro h
            subst h
            exact ht rfl
          have hd : ¬ (strTrim v).data.isEmpty = true := by
            simp only [List.isEmpty_iff]
            intro h
            exact ht (String.ext h)
          simp [mergeProjectData, cleanExtractedData, cleanScalar, he, ht, hv, pyTruthyS, hd]
    · rcases he : e.target_market with _ | v
      · simp [mergeProjectData, cleanExtractedData, cleanScalar, he, pyTruthyS]
      · by_cases ht : strTrim v = ""
        · by_cases hv0 : v = ""
          · subst hv0
            simp [mergeProjectData, cleanExtractedData, cleanScalar, he, ht, pyTruthyS]
          · simp [mergeProjectData, cleanExtractedData, cleanScalar, he, ht, hv0, pyTruthyS]
        · have hv : v ≠ "" := by
            intro h
            subst h
            exact ht rfl
          have hd : ¬ (strTrim v).data.isEmpty = true := by
            simp only [List.isEmpty_iff]
            intro h
            exact ht (String.ext h)
          simp [mergeProjectData, cleanExtractedData, cleanScalar, he, ht, hv, pyTruthyS, hd]
    · rcases he : e.business_model with _ | v
      · simp [mergeProjectData, cleanExtractedData, cleanScalar, he, pyTruthyS]
      · by_cases ht : strTrim v = ""
        · by_cases hv0 : v = ""
          · subst hv0
            simp [mergeProjectData, cleanExtractedData, cleanScalar, he, ht, pyTruthyS]
          · simp [mergeProjectData, cleanExtractedData, cleanScalar, he, ht, hv0, pyTruthyS]
        · have hv : v ≠ "" := by
            intro h
            subst h
            exact ht rfl
          have hd : ¬ (strTrim v).data.isEmpty = true := by
            simp only [List.isEmpty_iff]
            intro h
            exact ht (String.ext h)
          simp [mergeProjectData, cleanExtractedData, cleanScalar, he, ht, hv, pyTruthyS, hd]
    · rcases he : e.metrics with _ | em
      · simp [mergeProjectData, cleanExtractedData, cleanNestedValue, he]
      · by_cases hne : metricsRawNonempty em = true
        · rcases hr : em.revenue with _ | v
          · rcases hm2 : p.metrics with _ | pm <;>
              simp [mergeProjectData, cleanExtractedData, mergeMetrics, cleanNestedValue,
                    he, hne, hr, hm2]
          · by_cases hv : v = "" <;>
              rcases hm2 : p.metrics with _ | pm <;>
              simp [mergeProjectData, cleanExtractedData, mergeMetrics, cleanNestedValue,
                    he, hne, hr, hm2, hv]
        · have hne' : metricsRawNonempty em = false := by simpa using hne
          have h1 : em.revenue = none := by
            rcases h : em.revenue with _ | v
            · rfl
            · exact absurd (by simp [metricsRawNonempty, h]) hne
          simp [mergeProjectData, cleanExtractedData, cleanNestedValue, he, hne', h1]
    · rcases he : e.metrics with _ | em
      · simp [mergeProjectData, cleanExtractedData, cleanNestedValue, he]
      · by_cases hne : metricsRawNonempty em = true
        · rcases hr : em.growth_rate with _ | v
          · rcases hm2 : p.metrics with _ | pm <;>
              simp [mergeProjectData, cleanExtractedData, mergeMetrics, cleanNestedValue,
                    he, hne, hr, hm2]
          · by_cases hv : v = "" <;>
              rcases hm2 : p.metrics with _ | pm <;>
              simp [mergeProjectData, cleanExtractedData, mergeMetrics, cleanNestedValue,
                    he, hne, hr, hm2, hv]
        · have hne' : metricsRawNonempty em = false := by simpa using hne
          have h1 : em.growth_rate = none := by
            rcases h : em.growth_rate with _ | v
            · rfl
            · exact absurd (by simp [metricsRawNonempty, h]) hne
          simp [mergeProjectData, cleanExtractedData, cleanNestedValue, he, hne', h1]
    · rcases he : e.team_info with _ | et
      · simp [mergeProjectData, cleanExtractedData, he]
      · by_cases hne : teamRawNonempty et = true
        · rcases hf : et.founders with _ | l
          · rcases hm2 : p.team_info with _ | pt <;>
              simp [mergeProjectData, cleanExtractedData, mergeTeam, he, hne, hf, hm2]
          · rcases hm2 : p.team_info with _ | pt <;>
              simp [mergeProjectData, cleanExtractedData, mergeTeam, he, hne, hf, hm2]
        · have hne' : teamRawNonempty et = false := by simpa using hne
          have h1 : et.founders = none := by
            rcases h : et.founders with _ | v
            · rfl
            · exact absurd (by simp [teamRawNonempty, h]) hne
          simp [mergeProjectData, cleanExtractedData, he, hne', h1]
    · rcases he : e.funding_info with _ | ef
      · simp [mergeProjectData, cleanExtractedData, cleanNestedValue, he]
      · by_cases hne : fundingRawNonempty ef = true
        · rcases hr : ef.funding_stage with _ | v
          · rcases hm2 : p.funding_info with _ | pf <;>
              simp [mergeProjectData, cleanExtractedData, mergeFunding, cleanNestedValue,
                    he, hne, hr, hm2]
          · by_cases hv : v = "" <;>
              rcases hm2 : p.funding_info with _ | pf <;>
              simp [mergeProjectData, cleanExtractedData, mergeFunding, cleanNestedValue,
                    he, hne, hr, hm2, hv]
        · have hne' : fundingRawNonempty ef = false := by simpa using hne
          have h1 : ef.funding_stage = none := by
            rcases h : ef.funding_stage with _ | v
            · rfl
            · exact absurd (by simp [fundingRawNonempty, h]) hne
          simp [mergeProjectData, cleanExtractedData, cleanNestedValue, he, hne', h1]
    · rcases he : e.funding_info with _ | ef
      · simp [mergeProjectData, cleanExtractedData, cleanNestedValue, he]
      · by_cases hne : fundingRawNonempty ef = true
        · rcases hr : ef.amount_raised with _ | v
          · rcases hm2 : p.funding_info with _ | pf <;>
              simp [mergeProjectData, cleanExtractedData, mergeFunding, cleanNestedValue,
                    he, hne, hr, hm2]
          · by_cases hv : v = "" <;>
              rcases hm2 : p.funding_info with _ | pf <;>
              simp [mergeProjectData, cleanExtractedData, mergeFunding, cleanNestedValue,
                    he, hne, hr, hm2, hv]
        · have hne' : fundingRawNonempty ef = false := by simpa using hne
          have h1 : ef.amount_raised = none := by
            rcases h : ef.amount_raised with _ | v
            · rfl
            · exact absurd (by simp [fundingRawNonempty, h]) hne
          simp [mergeProjectData, cleanExtractedData, cleanNestedValue, he, hne', h1]
    · rcases he : e.funding_info with _ | ef
      · simp [mergeProjectData, cleanExtractedData, cleanNestedValue, he]
      · by_cases hne : fundingRawNonempty ef = true
        · rcases hr : ef.target_amount with _ | v
          · rcases hm2 : p.funding_info with _ | pf <;>
              simp [mergeProjectData, cleanExtractedData, mergeFunding, cleanNestedValue,
                    he, hne, hr, hm2]
          · by_cases hv : v = "" <;>
              rcases hm2 : p.funding_info with _ | pf <;>
              simp [mergeProjectData, cleanExtractedData, mergeFunding, cleanNestedValue,
                    he, hne, hr, hm2, hv]
        · have hne' : fundingRawNonempty ef = false := by simpa using hne
          have h1 : ef.target_amount = none := by
            rcases h : ef.target_amount with _ | v
            · rfl
            · exact absurd (by simp [fundingRawNonempty, h]) hne
          simp [mergeProjectData, cleanExtractedData, cleanNestedValue, he, hne', h1]
  · intro hp m hm a ha b hb hl
    obtain ⟨hc, rfl⟩ := hokEq m hm
    have hcanon : ∀ x ∈ (mergeProjectData (some p) (cleanExtractedData e)).categories.getD [],
        projectCategoryValues.contains x = true := by
      rcases hec : (cleanExtractedData e).categories with _ | l
      · intro x hx
        have hx' : x ∈ p.categories.getD [] := by
          simpa [mergeProjectData, hec] using hx
        exact List.all_eq_true.mp hp x hx'
      · simp only [mergeAssignmentsValid, hec, Bool.and_eq_true] at hc
        exact List.all_eq_true.mp hc.1.1.1
    have la := hcanon a ha
    have lb := hcanon b hb
    have ea : strLower a = a := projectCategoryValues_lowercase a (by simpa using la)
    have eb : strLower b = b := projectCategoryValues_lowercase b (by simpa using lb)
    rw [← ea, ← eb, hl]
  · intro s hs hbad
    have h : ¬ mergeAssignmentsValid (some p) (cleanExtractedData e) = true := by
      intro hcv
      simp only [mergeAssignmentsValid, hs, Bool.and_eq_true] at hcv
      rw [hbad] at hcv
      exact Bool.noConfusion hcv.1.1.2
    unfold mergeProjectDataChecked
    rw [if_neg h]
  · intro c hcmem hbad
    have h : ¬ mergeAssignmentsValid (some p) (cleanExtractedData e) = true := by
      intro hcv
      rcases hec : (cleanExtractedData e).categories with _ | l
      · rw [hec] at hcmem
        simp at hcmem
      · rw [hec] at hcmem
        simp only [Option.getD_some] at hcmem
        simp only [mergeAssignmentsValid, hec, Bool.and_eq_true] at hcv
        have hcm : c ∈ (mergeProjectData (some p) (cleanExtractedData e)).categories.getD [] := by
          simp [mergeProjectData, hec, List.mem_dedup]
          exact Or.inr hcmem
        have := List.all_eq_true.mp hcv.1.1.1 c hcm
        rw [hbad] at this
        exact Bool.noConfusion this
    unfold mergeProjectDataChecked
    rw [if_neg h]

/-- C7 witness: a cleaned extraction whose stage value "unicorn" is not a
ProjectStage enum value makes the merge raise (modelled as the error
outcome). -/
theorem c7_merge_witness :
    mergeProjectDataChecked (some {}) (cleanExtractedData { stage := some "unicorn" })
      = Except.error () :=
  (c7_merge_amended {} { stage := some "unicorn" }).2.2.1 "unicorn" (by decide) (by decide)

/-! ### Claim C8 -/

/-- C8: the completeness score is idempotent under merging: applying
`_merge_project_data` a second time with the same extraction leaves the
recomputed completeness score of the merged profile unchanged (every
field except the category list is reproduced exactly; the category list
keeps the same elements, hence the same truthiness). -/
theorem c8_completeness_idempotent (current : Option ProjectData) (e : Extracted) :
    calculateCompleteness (mergeProjectData (some (mergeProjectData current e)) e)
      = calculateCompleteness (mergeProjectData current e) := by
  set m1 := mergeProjectData current e with hm1
  have hstage : (mergeProjectData (some m1) e).stage = m1.stage := by
    rcases h : e.stage with _ | v
    · simp [mergeProjectData, h]
    · rw [hm1]
      simp [mergeProjectData, h]
  have hps : (mergeProjectData (some m1) e).problem_solved = m1.problem_solved := by
    rcases h : e.problem_solved with _ | v
    · simp [mergeProjectData, h]
    · rw [hm1]
      simp [mergeProjectData, h]
  have hsol : (mergeProjectData (some m1) e).solution = m1.solution := by
    rcases h : e.solution with _ | v
    · simp [mergeProjectData, h]
    · rw [hm1]
      simp [mergeProjectData, h]
  have htm : (mergeProjectData (some m1) e).target_market = m1.target_market := by
    rcases h : e.target_market with _ | v
    · simp [mergeProjectData, h]
    · rw [hm1]
      simp [mergeProjectData, h]
  have hbm : (mergeProjectData (some m1) e).business_model = m1.business_model := by
    rcases h : e.business_model with _ | v
    · simp [mergeProjectData, h]
    · rw [hm1]
      simp [mergeProjectData, h]
  have hmet : (mergeProjectData (some m1) e).metrics = m1.metrics := by
    rcases h : e.metrics with _ | em
    · simp [mergeProjectData, h]
    · rw [hm1]
      simp only [mergeProjectData, h, Option.getD_some]
      rcases em with ⟨r, u, g⟩
      rcases r <;> rcases u <;> rcases g <;> simp [mergeMetrics]
  have hteam : (mergeProjectData (some m1) e).team_info = m1.team_info := by
    rcases h : e.team_info with _ | et
    · simp [mergeProjectData, h]
    · rw [hm1]
      simp only [mergeProjectData, h, Option.getD_some]
      rcases et with ⟨s, f, x⟩
      rcases s <;> rcases f <;> simp [mergeTeam]
  have hfund : (mergeProjectData (some m1) e).funding_info = m1.funding_info := by
    rcases h : e.funding_info with _ | ef
    · simp [mergeProjectData, h]
    · rw [hm1]
      simp only [mergeProjectData, h, Option.getD_some]
      rcases ef with ⟨a, b, c⟩
      rcases a <;> rcases b <;> rcases c <;> simp [mergeFunding]
  have hcat : catTruthy (mergeProjectData (some m1) e).categories
      = catTruthy m1.categories := by
    rcases h : e.categories with _ | new
    · simp [mergeProjectData, h]
    · rw [hm1]
      simp only [mergeProjectData, h, Option.getD_some]
      apply Bool.eq_iff_iff.mpr
      simp [catTruthy, List.isEmpty_iff, List.dedup_eq_nil, List.append_eq_nil]
  simp only [calculateCompleteness]
  rw [hstage, hps, hsol, htm, hbm, hmet, hteam, hfund, hcat]

/-! ### Claim C9 -/

/-- C9: connecting while events are queued replays every queued event once
in original publish order (the delivered sequence carries exactly the
queued payloads in order), afterwards the replay queue is empty; queueing
keeps the queue bounded by the fixed capacity `max_queue_size` and evicts
from the oldest side (the stored queue is always a suffix of the previous
queue plus the newly stamped event). -/
theorem c9_replay_queue (queue : List WsMessage) :
    ((sendQueuedMessages queue).1.map WsMessage.payload = queue.map WsMessage.payload)
    ∧ ((sendQueuedMessages queue).1.length = queue.length)
    ∧ ((sendQueuedMessages queue).2 = [])
    ∧ (∀ m now, queue.length ≤ maxQueueSize →
        (queueMessage queue now m).length ≤ maxQueueSize)
    ∧ (∀ m now, (queueMessage queue now m)
        <:+ (queue ++ [{ m with queued_at := some now }])) := by
  refine ⟨?_, ?_, rfl, ?_, ?_⟩
  · simp [sendQueuedMessages, List.map_map]
  · simp [sendQueuedMessages]
  · intro m now _
    unfold queueMessage
    dsimp only
    split_ifs with h
    · simp only [List.length_drop]
      omega
    · simp only [List.length_append, List.length_cons, List.length_nil] at h ⊢
      omega
  · intro m now
    unfold queueMessage
    dsimp only
    split_ifs with h
    · exact List.drop_suffix _ _
    · exact List.suffix_refl _

/-- C9 witness: queueing a second event onto a one-event queue stays
within the capacity bound. -/
theorem c9_replay_queue_witness :
    (queueMessage [⟨"e1", none, false⟩] "t0" ⟨"e2", none, false⟩).length ≤ maxQueueSize :=
  (c9_replay_queue [⟨"e1", none, false⟩]).2.2.2.1 ⟨"e2", none, false⟩ "t0" (by decide)

/-! ### Claim C10 -/

/-- C10 counterexample: the claim states that replayed events equal the
published record with no fields added or changed; the fan-out stamps
`queued_at` when queueing and sets `replayed` when replaying, so the
record received on replay differs from the published one. -/
theorem c10_passthrough_counterexample :
    ((sendQueuedMessages (queueMessage [] "t1" ⟨"search-results", none, false⟩)).1
      = [⟨"search-results", some "t1", true⟩])
    ∧ (⟨"search-results", some "t1", true⟩ : WsMessage) ≠ ⟨"search-results", none, false⟩ :=
  ⟨by decide, by decide⟩

/-- C10 (amended): events delivered immediately to live connections are
passed through completely unmodified; events that pass through the replay
queue keep their payload and their order, but the fan-out adds a
`queued_at` stamp on queueing and sets `replayed` to true on replay. -/
theorem c10_passthrough_amended (connections : List ℕ) (queue : List WsMessage)
    (now : String) (message : WsMessage) :
    (connections ≠ [] →
      (broadcastToConversation connections queue now message).1
        = connections.map (fun c => (c, message)))
    ∧ (connections = [] →
        (broadcastToConversation connections queue now message).1 = []
        ∧ (broadcastToConversation connections queue now message).2
            = queueMessage queue now message)
    ∧ ((sendQueuedMessages queue).1.map WsMessage.payload = queue.map WsMessage.payload)
    ∧ (∀ d ∈ (sendQueuedMessages queue).1, d.replayed = true)
    ∧ ((queueMessage queue now message)
        <:+ (queue ++ [{ message with queued_at := some now }])) := by
  refine ⟨?_, ?_, ?_, ?_, ?_⟩
  · intro h
    have : connections.isEmpty = false := by
      simpa [List.isEmpty_iff] using h
    simp [broadcastToConversation, this]
  · intro h
    subst h
    simp [broadcastToConversation]
  · simp [sendQueuedMessages, List.map_map]
  · intro d hd
    simp only [sendQueuedMessages, List.mem_map] at hd
    obtain ⟨m, _, rfl⟩ := hd
    rfl
  · unfold queueMessage
    dsimp only
    split_ifs with h
    · exact List.drop_suffix _ _
    · exact List.suffix_refl _

/-- C10 witness: broadcasting to one live connection delivers the exact
published record. -/
theorem c10_passthrough_witness :
    (broadcastToConversation [1] [] "t" ⟨"ev", none, false⟩).1
      = [(1, ⟨"ev", none, false⟩)] :=
  (c10_passthrough_amended [1] [] "t" ⟨"ev", none, false⟩).1 (by decide)
